import Mathlib

/-!
Verification of the multi-device orchestration layer of the `auto_mobile`
repository: a shallow embedding, in Lean 4, of the dispatcher
(`utils/multi_runner.py`), the device connection manager
(`utils/device_manager.py`) and the per-device logger / console output
(`utils/device_logger.py`), together with proofs of the behavioural
properties stated in the specification.

Conventions of the embedding:
* wall-clock instants are abstract `Nat` ticks supplied by the environment;
* Python strings are Lean `String`s (both index by code points);
* a Python coroutine body that may raise is a value of an explicit
  outcome type rather than an exception;
* `asyncio.gather(..., return_exceptions=True)` is a list of per-task
  outcomes, one entry per launched task, in launch order.
-/

/-! ## Data model (`utils/device_manager.py`, `utils/multi_runner.py`) -/

/-- `ConnectedDevice` dataclass from `utils/device_manager.py`. -/
structure ConnectedDevice where
  name : String
  serial : String
  device_type : String
  description : String
deriving DecidableEq, Repr

/-- `TaskResult` from `utils/multi_runner.py`: the constructor takes the
device name and initialises every other field to its default
(`success=False`, empty strings, `duration=0.0`, `steps_used=0`). -/
structure TaskResult where
  device_name : String
  success : Bool := false
  output : String := ""
  error : String := ""
  duration : Nat := 0
  steps_used : Nat := 0
  trajectory_path : String := ""
  log_path : String := ""
deriving DecidableEq, Repr

/-- Where inside the `try` block of `_run_device_task` an exception is
raised: before the trajectory path is assigned (tools / LLM
initialisation) or after it (agent construction or the agent run). -/
inductive RaisePhase
  | beforeTrajectory
  | afterTrajectory
deriving DecidableEq, Repr

/-- Outcome of the `try` block of `_run_device_task` (lines 162-235 of
`utils/multi_runner.py`): either the agent run completes with a success
flag, an output string and a step count, or some statement raises. -/
inductive TaskBody
  | completes (agentSuccess : Bool) (output : String) (steps : Nat)
  | raisesAt (phase : RaisePhase) (msg : String)
deriving DecidableEq, Repr

/-- Environment data a device task reads: the clock at entry and at exit
of its timed section, the log path handed out by the device logger and
the trajectory folder name derived from the current timestamp. -/
structure TaskEnv where
  startTime : Nat := 0
  endTime : Nat := 0
  logPath : String := ""
  trajectoryPath : String := ""
deriving DecidableEq, Repr

/-- The body of `MultiDeviceRunner._run_device_task` after the semaphore
is acquired: builds the `TaskResult`, records the log path, then either
stores the agent outcome or catches the exception (lines 229-235) and
stores `success=False`, `error=str(e)` and the elapsed duration. -/
def run_device_task (device : ConnectedDevice) (env : TaskEnv)
    (body : TaskBody) : TaskResult :=
  let result : TaskResult := { device_name := device.name, log_path := env.logPath }
  match body with
  | .completes agentSuccess output steps =>
    { result with
      success := agentSuccess
      output := output
      duration := env.endTime - env.startTime
      steps_used := steps
      trajectory_path := env.trajectoryPath }
  | .raisesAt phase msg =>
    { result with
      success := false
      error := msg
      duration := env.endTime - env.startTime
      trajectory_path :=
        match phase with
        | .beforeTrajectory => ""
        | .afterTrajectory => env.trajectoryPath }

/-- How one device task behaves: `preGateRaise` is an exception raised
outside the per-task `try` block (for instance during logger setup,
lines 142-157), which escapes the coroutine; `runs` reaches the timed
section and its `try` block has the given outcome. -/
inductive TaskBehavior
  | preGateRaise (msg : String)
  | runs (env : TaskEnv) (body : TaskBody)
deriving DecidableEq, Repr

/-- One entry of the list returned by
`asyncio.gather(*tasks, return_exceptions=True)` (line 106): either the
`TaskResult` the coroutine returned or the exception that escaped it,
carried as its message. -/
inductive GatherItem
  | taskResult (r : TaskResult)
  | exception (msg : String)
deriving DecidableEq, Repr

/-- The gather entry produced by one device's coroutine: a pre-gate
exception escapes; otherwise the `try`/`except` inside the task converts
every body exception into a returned `TaskResult`. -/
def device_task_item : ConnectedDevice × TaskBehavior → GatherItem
  | (_, .preGateRaise msg) => .exception msg
  | (d, .runs env body) => .taskResult (run_device_task d env body)

/-- The result-processing loop of `run_all` (lines 109-116): a returned
`TaskResult` is kept, an escaped exception is converted into a fresh
`TaskResult("unknown")` whose `error` is the exception message. -/
def process_results : List GatherItem → List TaskResult
  | [] => []
  | .taskResult r :: rest => r :: process_results rest
  | .exception msg :: rest =>
      { device_name := "unknown", error := msg } :: process_results rest

/-- `MultiDeviceRunner.run_all`: launch one task per device, gather all
outcomes, and post-process them into the returned list of results. -/
def run_all (pairs : List (ConnectedDevice × TaskBehavior)) : List TaskResult :=
  process_results (pairs.map device_task_item)

/-- The final `TaskResult` a single device contributes to `run_all`. -/
def result_of_pair : ConnectedDevice × TaskBehavior → TaskResult
  | (_, .preGateRaise msg) => { device_name := "unknown", error := msg }
  | (d, .runs env body) => run_device_task d env body

theorem process_results_map (pairs : List (ConnectedDevice × TaskBehavior)) :
    process_results (pairs.map device_task_item) = pairs.map result_of_pair := by
  induction pairs with
  | nil => rfl
  | cons p rest ih =>
    obtain ⟨d, b⟩ := p
    cases b with
    | preGateRaise msg => simp [process_results, device_task_item, result_of_pair, ih]
    | runs env body => simp [process_results, device_task_item, result_of_pair, ih]

theorem run_all_eq_map (pairs : List (ConnectedDevice × TaskBehavior)) :
    run_all pairs = pairs.map result_of_pair :=
  process_results_map pairs

/-- Claim C1: for every list of N connected devices, `run_all` returns a
list of exactly N `TaskResult`s, one per device, whatever each device
task does — including when every task raises (pre-gate or in-body): each
escaped exception becomes a `TaskResult` instead of propagating. -/
theorem run_all_length_eq (pairs : List (ConnectedDevice × TaskBehavior)) :
    (run_all pairs).length = pairs.length ∧
    ∀ i : Nat, (run_all pairs)[i]? = pairs[i]?.map result_of_pair := by
  constructor
  · rw [run_all_eq_map]; exact List.length_map _ _
  · intro i; rw [run_all_eq_map]; exact List.getElem?_map _ _ _

/-- Claim C3: if one device's task body raises (for example engine
construction raising `RuntimeError("model timeout")`), the exception is
caught at the task boundary: the device's gather entry is a returned
`TaskResult` (never an escaped exception), that result carries
`success=false`, `error` equal to the exception message, the elapsed
duration and the device's own name, and every other device's entry in
`run_all` is exactly what its own behaviour alone determines. -/
theorem device_task_exception_contained
    (pairs : List (ConnectedDevice × TaskBehavior)) (i : Nat)
    (d : ConnectedDevice) (env : TaskEnv) (phase : RaisePhase) (msg : String)
    (h : pairs[i]? = some (d, .runs env (.raisesAt phase msg))) :
    device_task_item (d, .runs env (.raisesAt phase msg)) =
      GatherItem.taskResult (run_device_task d env (.raisesAt phase msg)) ∧
    (run_all pairs)[i]? = some (run_device_task d env (.raisesAt phase msg)) ∧
    (run_device_task d env (.raisesAt phase msg)).success = false ∧
    (run_device_task d env (.raisesAt phase msg)).error = msg ∧
    (run_device_task d env (.raisesAt phase msg)).duration =
      env.endTime - env.startTime ∧
    (run_device_task d env (.raisesAt phase msg)).device_name = d.name ∧
    ∀ j : Nat, j ≠ i → (run_all pairs)[j]? = pairs[j]?.map result_of_pair := by
  refine ⟨rfl, ?_, ?_, ?_, ?_, ?_, ?_⟩
  · rw [run_all_eq_map, List.getElem?_map, h]; rfl
  · cases phase <;> rfl
  · cases phase <;> rfl
  · cases phase <;> rfl
  · cases phase <;> rfl
  · intro j _; rw [run_all_eq_map]; exact List.getElem?_map _ _ _

/-- Concrete instance of `device_task_exception_contained`: two devices,
the second one's engine construction raises `model timeout`; its result
in `run_all` is the converted failure record. -/
theorem device_task_exception_contained_witness :
    (run_all
      [(⟨"devA", "serialA", "usb", ""⟩, .runs ⟨0, 5, "logs/a.log", "trajA"⟩
          (.completes true "done" 3)),
       (⟨"devC", "serialC", "usb", ""⟩, .runs ⟨0, 7, "logs/c.log", "trajC"⟩
          (.raisesAt .afterTrajectory "model timeout"))])[1]? =
      some (run_device_task ⟨"devC", "serialC", "usb", ""⟩
        ⟨0, 7, "logs/c.log", "trajC"⟩ (.raisesAt .afterTrajectory "model timeout")) ∧
    (run_device_task ⟨"devC", "serialC", "usb", ""⟩ ⟨0, 7, "logs/c.log", "trajC"⟩
        (.raisesAt .afterTrajectory "model timeout")).error = "model timeout" := by
  have h := device_task_exception_contained
    [(⟨"devA", "serialA", "usb", ""⟩, .runs ⟨0, 5, "logs/a.log", "trajA"⟩
        (.completes true "done" 3)),
     (⟨"devC", "serialC", "usb", ""⟩, .runs ⟨0, 7, "logs/c.log", "trajC"⟩
        (.raisesAt .afterTrajectory "model timeout"))]
    1 ⟨"devC", "serialC", "usb", ""⟩ ⟨0, 7, "logs/c.log", "trajC"⟩
    .afterTrajectory "model timeout" rfl
  exact ⟨h.2.1, h.2.2.2.1⟩

/-- Claim C10: an exception that escapes a device task outside the
per-task `try` block (for instance during logger setup, before the gate
is acquired) is still converted by `run_all` into a `TaskResult`, but
with `device_name` equal to the literal string `"unknown"`,
`success=false`, the exception message as `error` and `duration` left at
its default `0.0`: the failing device's identity is not recorded. -/
theorem escaped_exception_unknown_result
    (pairs : List (ConnectedDevice × TaskBehavior)) (i : Nat)
    (d : ConnectedDevice) (msg : String)
    (h : pairs[i]? = some (d, .preGateRaise msg)) :
    (run_all pairs)[i]? =
      some { device_name := "unknown", error := msg } ∧
    ({ device_name := "unknown", error := msg } : TaskResult).success = false ∧
    ({ device_name := "unknown", error := msg } : TaskResult).duration = 0 ∧
    ({ device_name := "unknown", error := msg } : TaskResult).device_name
      = "unknown" := by
  refine ⟨?_, rfl, rfl, rfl⟩
  rw [run_all_eq_map, List.getElem?_map, h]; rfl

/-- Concrete instance of `escaped_exception_unknown_result`: a device
named `devB` whose logger setup raises; its slot in `run_all` holds the
anonymous failure result, so the name `devB` does not appear in it. -/
theorem escaped_exception_unknown_result_witness :
    (run_all [(⟨"devB", "serialB", "usb", ""⟩,
        .preGateRaise "disk full")])[0]? =
      some { device_name := "unknown", error := "disk full" } :=
  (escaped_exception_unknown_result
    [(⟨"devB", "serialB", "usb", ""⟩, .preGateRaise "disk full")]
    0 ⟨"devB", "serialB", "usb", ""⟩ "disk full" rfl).1

/-! ## Device connection manager (`utils/device_manager.py`) -/

/-- One device entry of the configuration mapping handed to
`DeviceManager.connect_all`; `type` defaults to `"unknown"` and
`description` and `serial` to the empty string, mirroring the
`config.get` calls of `_connect_device`. -/
structure DeviceConfig where
  type : String := "unknown"
  description : String := ""
  host : String := ""
  port : Nat := 0
  serial : String := ""
deriving DecidableEq, Repr

/-- Externally visible actions a connection attempt performs: the `adb`
subcommands issued by `_run_adb_command` and the two `asyncio.sleep`
calls (`sleepReconnect` is the 1-second pause inside
`_reconnect_wireless`, `sleepRetryDelay` the `retry_delay` pause between
attempts). -/
inductive AdbAction
  | adbConnect (addr : String)
  | adbDisconnect (addr : String)
  | adbDevices
  | sleepReconnect
  | sleepRetryDelay
deriving DecidableEq, Repr

/-- `DeviceManager._reconnect_wireless`: disconnect, wait one second,
connect again (errors ignored; the status check is authoritative). -/
def reconnect_wireless (addr : String) : List AdbAction :=
  [.adbDisconnect addr, .sleepReconnect, .adbConnect addr]

/-- The actions of one iteration of the retry loop of `_connect_device`
(lines 91-127), given the status the check reports for this attempt:
wireless devices first get a best-effort `adb connect`; then the status
check runs; on `"device"` the loop returns; on `"offline"` and on any
other status (not found) alike, a wireless device gets a full
disconnect+reconnect cycle and every device type sleeps `retry_delay`
before the next attempt. -/
def attempt_actions (deviceType addr : String) (status : Option String) :
    List AdbAction :=
  (if deviceType = "wireless" then [.adbConnect addr] else []) ++
  [.adbDevices] ++
  (if status = some "device" then []
   else if status = some "offline" then
     (if deviceType = "wireless" then reconnect_wireless addr else []) ++
       [.sleepRetryDelay]
   else
     (if deviceType = "wireless" then reconnect_wireless addr else []) ++
       [.sleepRetryDelay])

/-- What one call of `_connect_device` produces: the returned device or
the raised error, the sequence of external actions, and the number of
status-check attempts performed. -/
structure ConnectOutcome where
  result : Except String ConnectedDevice
  actions : List AdbAction
  checks : Nat
deriving Repr

/-- The retry loop of `_connect_device`: `attempt` is the 1-based loop
counter, `fuel` the number of iterations left (`maxRetry` initially);
`statuses a` is what `_get_device_status` reports on attempt `a`
(`none` when the serial is absent from the `adb devices` listing). When
the fuel runs out the `ConnectionError` of line 129 is raised. -/
def connect_attempts (name addr deviceType description : String)
    (statuses : Nat → Option String) (maxRetry : Nat) :
    Nat → Nat → ConnectOutcome
  | _, 0 =>
    ⟨.error ("Failed to connect to " ++ name ++ " after "
        ++ toString maxRetry ++ " attempts"), [], 0⟩
  | attempt, fuel + 1 =>
    let st := statuses attempt
    let acts := attempt_actions deviceType addr st
    if st = some "device" then
      ⟨.ok ⟨name, addr, deviceType, description⟩, acts, 1⟩
    else
      let rest := connect_attempts name addr deviceType description statuses
        maxRetry (attempt + 1) fuel
      ⟨rest.result, acts ++ rest.actions, rest.checks + 1⟩

/-- `DeviceManager._connect_device`: resolve the serial from the device
type (`host:port` for wireless, the configured serial for usb/emulator,
a `ValueError` for anything else — raised before any attempt), then run
the retry loop with `max_retry` iterations. -/
def connect_device (maxRetry : Nat) (name : String) (cfg : DeviceConfig)
    (statuses : Nat → Option String) : ConnectOutcome :=
  if cfg.type = "wireless" then
    connect_attempts name (cfg.host ++ ":" ++ toString cfg.port) cfg.type
      cfg.description statuses maxRetry 1 maxRetry
  else if cfg.type = "usb" ∨ cfg.type = "emulator" then
    connect_attempts name cfg.serial cfg.type cfg.description statuses
      maxRetry 1 maxRetry
  else
    ⟨.error ("Unknown device type: " ++ cfg.type), [], 0⟩

/-- `DeviceManager.connect_all`: fan out one `_connect_device` per
configured device, gather with `return_exceptions=True`, keep the
successfully connected devices in order and drop (after printing) every
per-device failure — no exception propagates to the caller. -/
def connect_all (maxRetry : Nat) (cfgs : List (String × DeviceConfig))
    (statuses : String → Nat → Option String) : List ConnectedDevice :=
  (cfgs.map (fun p => connect_device maxRetry p.1 p.2 (statuses p.1))).filterMap
    (fun oc => oc.result.toOption)

theorem connect_attempts_ok_name (name addr deviceType description : String)
    (statuses : Nat → Option String) (maxRetry : Nat) :
    ∀ fuel attempt dev,
      (connect_attempts name addr deviceType description statuses maxRetry
        attempt fuel).result = .ok dev → dev.name = name := by
  intro fuel
  induction fuel with
  | zero => intro attempt dev h; simp [connect_attempts] at h
  | succ fuel ih =>
    intro attempt dev h
    rw [connect_attempts] at h
    by_cases hst : statuses attempt = some "device"
    · simp only [hst, if_pos rfl] at h
      cases h
      rfl
    · simp only [if_neg hst] at h
      exact ih (attempt + 1) dev h

theorem connect_attempts_all_fail (name addr deviceType description : String)
    (statuses : Nat → Option String) (maxRetry : Nat)
    (hfail : ∀ a, statuses a ≠ some "device") :
    ∀ fuel attempt,
      (connect_attempts name addr deviceType description statuses maxRetry
          attempt fuel).checks = fuel ∧
      (connect_attempts name addr deviceType description statuses maxRetry
          attempt fuel).result =
        .error ("Failed to connect to " ++ name ++ " after "
          ++ toString maxRetry ++ " attempts") := by
  intro fuel
  induction fuel with
  | zero => intro attempt; exact ⟨rfl, rfl⟩
  | succ fuel ih =>
    intro attempt
    rw [connect_attempts]
    simp only [if_neg (hfail attempt)]
    exact ⟨by simp [(ih (attempt + 1)).1], (ih (attempt + 1)).2⟩

theorem connect_device_ok_name (maxRetry : Nat) (name : String)
    (cfg : DeviceConfig) (statuses : Nat → Option String) (dev : ConnectedDevice)
    (h : (connect_device maxRetry name cfg statuses).result = .ok dev) :
    dev.name = name := by
  unfold connect_device at h
  by_cases h1 : cfg.type = "wireless"
  · rw [if_pos h1] at h; exact connect_attempts_ok_name _ _ _ _ _ _ _ _ _ h
  · rw [if_neg h1] at h
    by_cases h2 : cfg.type = "usb" ∨ cfg.type = "emulator"
    · rw [if_pos h2] at h; exact connect_attempts_ok_name _ _ _ _ _ _ _ _ _ h
    · rw [if_neg h2] at h; simp at h

/-- Recognises the `retry_delay` sleep separating two attempts. -/
def isRetrySleep : AdbAction → Bool
  | .sleepRetryDelay => true
  | _ => false

theorem attempt_actions_one_retry_sleep (deviceType addr : String)
    (status : Option String) (h : status ≠ some "device") :
    (attempt_actions deviceType addr status).countP isRetrySleep = 1 := by
  by_cases hw : deviceType = "wireless" <;>
    by_cases ho : status = some "offline" <;>
      simp [attempt_actions, reconnect_wireless, isRetrySleep, h, hw, ho]

theorem connect_attempts_fail_sleeps (name addr deviceType description : String)
    (statuses : Nat → Option String) (maxRetry : Nat)
    (hfail : ∀ a, statuses a ≠ some "device") :
    ∀ fuel attempt,
      (connect_attempts name addr deviceType description statuses maxRetry
          attempt fuel).actions.countP isRetrySleep = fuel := by
  intro fuel
  induction fuel with
  | zero => intro attempt; rfl
  | succ fuel ih =>
    intro attempt
    rw [connect_attempts]
    simp only [if_neg (hfail attempt)]
    simp [List.countP_append, ih (attempt + 1),
      attempt_actions_one_retry_sleep deviceType addr _ (hfail attempt),
      Nat.add_comm]

theorem connect_device_never_ok (maxRetry : Nat) (name : String)
    (cfg : DeviceConfig) (statuses : Nat → Option String)
    (hfail : ∀ a, statuses a ≠ some "device") (d : ConnectedDevice) :
    (connect_device maxRetry name cfg statuses).result ≠ .ok d := by
  unfold connect_device
  by_cases h1 : cfg.type = "wireless"
  · rw [if_pos h1,
      (connect_attempts_all_fail name _ cfg.type cfg.description statuses maxRetry
        hfail maxRetry 1).2]
    simp
  · rw [if_neg h1]
    by_cases h2 : cfg.type = "usb" ∨ cfg.type = "emulator"
    · rw [if_pos h2,
        (connect_attempts_all_fail name cfg.serial cfg.type cfg.description statuses
          maxRetry hfail maxRetry 1).2]
      simp
    · rw [if_neg h2]; simp

/-- Claim C2: a device whose status check never reports `"device"` (and
whose per-attempt commands do not raise) gets exactly `max_retry`
status-check attempts, one `retry_delay` sleep after each of them, and
ends in the `ConnectionError` of line 129; `connect_all` converts that
error into mere absence — no connected device carries the failing name —
while every device whose own connection succeeds is still returned. -/
theorem connect_all_retry_exhaustion
    (maxRetry : Nat) (cfgs : List (String × DeviceConfig))
    (statuses : String → Nat → Option String) (name : String) (cfg : DeviceConfig)
    (hty : cfg.type = "wireless" ∨ cfg.type = "usb" ∨ cfg.type = "emulator")
    (hfail : ∀ a, statuses name a ≠ some "device") :
    (connect_device maxRetry name cfg (statuses name)).checks = maxRetry ∧
    (connect_device maxRetry name cfg (statuses name)).result =
      .error ("Failed to connect to " ++ name ++ " after "
        ++ toString maxRetry ++ " attempts") ∧
    (connect_device maxRetry name cfg (statuses name)).actions.countP
      isRetrySleep = maxRetry ∧
    (∀ d ∈ connect_all maxRetry cfgs statuses, d.name ≠ name) ∧
    (∀ p ∈ cfgs, ∀ d,
      (connect_device maxRetry p.1 p.2 (statuses p.1)).result = .ok d →
        d ∈ connect_all maxRetry cfgs statuses) := by
  have hresolve :
      (connect_device maxRetry name cfg (statuses name)).checks = maxRetry ∧
      (connect_device maxRetry name cfg (statuses name)).result =
        .error ("Failed to connect to " ++ name ++ " after "
          ++ toString maxRetry ++ " attempts") ∧
      (connect_device maxRetry name cfg (statuses name)).actions.countP
        isRetrySleep = maxRetry := by
    unfold connect_device
    rcases hty with h1 | h2
    · rw [if_pos h1]
      exact ⟨(connect_attempts_all_fail _ _ _ _ _ _ hfail _ _).1,
        (connect_attempts_all_fail _ _ _ _ _ _ hfail _ _).2,
        connect_attempts_fail_sleeps _ _ _ _ _ _ hfail _ _⟩
    · have h1 : cfg.type = "wireless" → False := by
        rcases h2 with h | h <;> rw [h] <;> intro hc <;> simp at hc
      rw [if_neg h1, if_pos h2]
      exact ⟨(connect_attempts_all_fail _ _ _ _ _ _ hfail _ _).1,
        (connect_attempts_all_fail _ _ _ _ _ _ hfail _ _).2,
        connect_attempts_fail_sleeps _ _ _ _ _ _ hfail _ _⟩
  refine ⟨hresolve.1, hresolve.2.1, hresolve.2.2, ?_, ?_⟩
  · intro d hd
    rw [connect_all, List.mem_filterMap] at hd
    obtain ⟨oc, hoc, hsome⟩ := hd
    rw [List.mem_map] at hoc
    obtain ⟨p, hp, rfl⟩ := hoc
    have hok : (connect_device maxRetry p.1 p.2 (statuses p.1)).result = .ok d := by
      cases hres : (connect_device maxRetry p.1 p.2 (statuses p.1)).result with
      | ok d' => rw [hres] at hsome; cases hsome; rfl
      | error e => rw [hres] at hsome; cases hsome
    intro hname
    have hpname : p.1 = name := by
      rw [← connect_device_ok_name maxRetry p.1 p.2 (statuses p.1) d hok, hname]
    rw [hpname] at hok
    exact connect_device_never_ok maxRetry name p.2 (statuses name) hfail d hok
  · intro p hp d hok
    rw [connect_all, List.mem_filterMap]
    exact ⟨connect_device maxRetry p.1 p.2 (statuses p.1),
      List.mem_map.mpr ⟨p, hp, rfl⟩, by rw [hok]; rfl⟩

/-- Concrete instance of `connect_all_retry_exhaustion`: a usb device
whose status is `"offline"` on every check makes exactly the default 3
attempts. -/
theorem connect_all_retry_exhaustion_witness :
    (connect_device 3 "devA" { type := "usb", serial := "SER123" }
      ((fun _ _ => some "offline") "devA")).checks = 3 :=
  (connect_all_retry_exhaustion 3 [("devA", { type := "usb", serial := "SER123" })]
    (fun _ _ => some "offline") "devA" { type := "usb", serial := "SER123" }
    (Or.inr (Or.inl rfl))
    (fun _ => by intro hc; exact absurd (Option.some.inj hc) (by decide))).1

/-- Counterexample to claim C5: a wireless device whose address is
absent from every `adb devices` listing (status `none`, the "not found"
outcome — `"offline"` never occurs) still gets `adb disconnect` issued
by the retry loop, because the not-found branch of `_connect_device`
(lines 115-119) calls `_reconnect_wireless` for wireless devices exactly
like the offline branch does. -/
theorem wireless_notfound_disconnect_cex :
    AdbAction.adbDisconnect "10.0.0.5:5555" ∈
      (connect_device 3 "seeker"
        { type := "wireless", host := "10.0.0.5", port := 5555 }
        (fun _ => none)).actions := by decide

/-- Claim C5 amended: for a wireless device, the disconnect+reconnect
cycle is performed on every failed status check — for the `"offline"`
outcome and for the "not found" outcome alike — while usb/emulator
devices never get a disconnect issued. -/
theorem wireless_reconnect_on_any_failure (addr : String)
    (status : Option String) (h : status ≠ some "device") :
    AdbAction.adbDisconnect addr ∈ attempt_actions "wireless" addr status ∧
    AdbAction.adbConnect addr ∈ attempt_actions "wireless" addr status ∧
    (∀ st2 : Option String, ∀ a ∈ attempt_actions "usb" addr st2,
      ∀ x, a ≠ AdbAction.adbDisconnect x) ∧
    (∀ st2 : Option String, ∀ a ∈ attempt_actions "emulator" addr st2,
      ∀ x, a ≠ AdbAction.adbDisconnect x) := by
  refine ⟨?_, ?_, ?_, ?_⟩
  · by_cases ho : status = some "offline" <;>
      simp [attempt_actions, reconnect_wireless, h, ho]
  · by_cases ho : status = some "offline" <;>
      simp [attempt_actions, reconnect_wireless, h, ho]
  · intro st2 a ha x
    by_cases hd : st2 = some "device"
    · simp [attempt_actions, hd] at ha
      simp [ha]
    · by_cases ho : st2 = some "offline"
      · simp [attempt_actions, hd, ho] at ha
        rcases ha with ha | ha <;> simp [ha]
      · simp [attempt_actions, hd, ho] at ha
        rcases ha with ha | ha <;> simp [ha]
  · intro st2 a ha x
    by_cases hd : st2 = some "device"
    · simp [attempt_actions, hd] at ha
      simp [ha]
    · by_cases ho : st2 = some "offline"
      · simp [attempt_actions, hd, ho] at ha
        rcases ha with ha | ha <;> simp [ha]
      · simp [attempt_actions, hd, ho] at ha
        rcases ha with ha | ha <;> simp [ha]

/-- Concrete instance of `wireless_reconnect_on_any_failure` at the
"not found" status. -/
theorem wireless_reconnect_on_any_failure_witness :
    AdbAction.adbDisconnect "192.168.0.2:5555" ∈
      attempt_actions "wireless" "192.168.0.2:5555" none :=
  (wireless_reconnect_on_any_failure "192.168.0.2:5555" none (by decide)).1

/-! ## Per-device session logger (`utils/device_logger.py`)

`DeviceLogger.get_logger` runs entirely under `self._lock`, so each call
is one atomic state transformation; writes to an already-created logger
take no lock. A logger is modelled by its registry name
(`logging.getLogger` returns the same object for the same name), and a
file-handler creation is recorded as one entry of `created`. -/

structure DeviceLoggerState where
  log_dir : String := "logs"
  loggers : List (String × String) := []
  log_files : List (String × String) := []
  created : List String := []
deriving DecidableEq, Repr

/-- `DeviceLogger.get_logger` (lines 27-63): under the lock, return the
existing logger for the device name if present; otherwise create the
timestamped log file, the `device.{name}` logger, register both, and
record the file creation. -/
def get_logger (st : DeviceLoggerState) (deviceName timestamp : String) :
    String × DeviceLoggerState :=
  match st.loggers.lookup deviceName with
  | some lg => (lg, st)
  | none =>
    let logFile := st.log_dir ++ "/" ++ deviceName ++ "_" ++ timestamp ++ ".log"
    (("device." ++ deviceName),
      { st with
        loggers := (deviceName, "device." ++ deviceName) :: st.loggers
        log_files := (deviceName, logFile) :: st.log_files
        created := st.created ++ [deviceName] })

/-- A serialised sequence of `get_logger` calls (the lock admits them one
at a time), each given as a device name and the timestamp it observes. -/
def run_gets (st : DeviceLoggerState) : List (String × String) → DeviceLoggerState
  | [] => st
  | c :: rest => run_gets (get_logger st c.1 c.2).2 rest

/-- Invariant tying file creations to the registry: a device name has
exactly one recorded creation when it is registered, none before. -/
def LoggerInv (st : DeviceLoggerState) : Prop :=
  ∀ name, st.created.countP (fun c => c == name) =
    if (st.loggers.lookup name).isSome then 1 else 0

theorem loggerInv_empty : LoggerInv {} := by
  intro name; simp [List.lookup]

theorem loggerInv_step (st : DeviceLoggerState) (n t : String)
    (h : LoggerInv st) : LoggerInv (get_logger st n t).2 := by
  unfold get_logger
  cases hl : st.loggers.lookup n with
  | some lg => exact h
  | none =>
    intro name
    by_cases hn : n = name
    · subst hn
      have hz : st.created.countP (fun c => c == n) = 0 := by
        rw [h n, hl]; rfl
      simp [List.countP_append, List.lookup, hz]
    · have hb1 : (name == n) = false := beq_eq_false_iff_ne.mpr (Ne.symm hn)
      have hb2 : (n == name) = false := beq_eq_false_iff_ne.mpr hn
      simp only [List.countP_append, List.lookup]
      simp only [hb1]
      simp [hb2, h name]

theorem loggerInv_run (calls : List (String × String)) :
    ∀ st : DeviceLoggerState, LoggerInv st → LoggerInv (run_gets st calls) := by
  induction calls with
  | nil => intro st h; exact h
  | cons c rest ih =>
    intro st h
    exact ih _ (loggerInv_step st c.1 c.2 h)

theorem lookup_get_logger (st : DeviceLoggerState) (n t name : String) :
    ((get_logger st n t).2.loggers.lookup name).isSome =
      ((st.loggers.lookup name).isSome || (n == name)) := by
  unfold get_logger
  cases hl : st.loggers.lookup n with
  | some lg =>
    by_cases hn : n = name
    · subst hn; simp [hl]
    · simp [beq_eq_false_iff_ne.mpr hn]
  | none =>
    simp only [List.lookup]
    by_cases hn : n = name
    · subst hn; simp [hl]
    · have hb1 : (name == n) = false := beq_eq_false_iff_ne.mpr (Ne.symm hn)
      have hb2 : (n == name) = false := beq_eq_false_iff_ne.mpr hn
      simp [hb1, hb2]

theorem lookup_run_gets (name : String) (calls : List (String × String)) :
    ∀ st : DeviceLoggerState,
      ((run_gets st calls).loggers.lookup name).isSome =
        ((st.loggers.lookup name).isSome
          || calls.any (fun c => c.1 == name)) := by
  induction calls with
  | nil => intro st; simp [run_gets]
  | cons c rest ih =>
    intro st
    rw [run_gets, ih, lookup_get_logger]
    simp [Bool.or_assoc]

/-- Claim C7: `get_logger` is idempotent — a second call for the same
device name returns the same logger destination and leaves the state
untouched, whichever timestamps the two (lock-serialised) calls observe —
and over any run, a device's log file is created exactly once: once if
the name is ever requested, never otherwise. -/
theorem logger_idempotent_single_creation :
    (∀ (st : DeviceLoggerState) (name t1 t2 : String),
      (get_logger (get_logger st name t1).2 name t2).1 =
        (get_logger st name t1).1 ∧
      (get_logger (get_logger st name t1).2 name t2).2 =
        (get_logger st name t1).2) ∧
    (∀ (calls : List (String × String)) (name : String),
      (run_gets {} calls).created.countP (fun c => c == name) =
        if calls.any (fun c => c.1 == name) then 1 else 0) := by
  constructor
  · intro st name t1 t2
    unfold get_logger
    cases hl : st.loggers.lookup name with
    | some lg => simp [hl]
    | none => simp [List.lookup]
  · intro calls name
    have hinv := loggerInv_run calls {} loggerInv_empty name
    rw [hinv, lookup_run_gets]
    simp only [List.lookup, Option.isSome_none, Bool.false_or]

/-! ## Admission gate (`asyncio.Semaphore` in `run_all`/`_run_device_task`)

The control skeleton of every device coroutine with respect to the
shared semaphore of capacity `C` (line 97): some pre-gate work
(lines 142-157, which may raise and end the coroutine without ever
touching the gate), then `async with semaphore` — acquire, run the
guarded body (whose exceptions are caught inside, lines 162-235), release
on exit of the `with` block — then the completion message and the
`return` (lines 238-246). The cooperative scheduler interleaves the
coroutines arbitrarily; one `SemStep` is one atomic phase change of one
task. -/

inductive TaskPhase
  | prelude
  | waiting
  | holding
  | released
  | done
deriving DecidableEq, Repr

/-- Number of tasks currently inside the `async with semaphore` block. -/
def holdingCount (s : List TaskPhase) : Nat :=
  s.countP (fun p => p == .holding)

/-- One scheduler step: a task finishes its pre-gate work and reaches
the gate, or its pre-gate work raises and the coroutine ends without
acquiring, or it acquires a free slot (only when fewer than `C` tasks
hold one), or it leaves the `with` block (releasing its slot whether the
body raised or not), or it returns its result. -/
inductive SemStep (C : Nat) : List TaskPhase → List TaskPhase → Prop
  | toWaiting (s : List TaskPhase) (i : Nat) :
      s[i]? = some .prelude → SemStep C s (s.set i .waiting)
  | preGateFail (s : List TaskPhase) (i : Nat) :
      s[i]? = some .prelude → SemStep C s (s.set i .done)
  | acquire (s : List TaskPhase) (i : Nat) :
      s[i]? = some .waiting → holdingCount s < C → SemStep C s (s.set i .holding)
  | release (s : List TaskPhase) (i : Nat) :
      s[i]? = some .holding → SemStep C s (s.set i .released)
  | finish (s : List TaskPhase) (i : Nat) :
      s[i]? = some .released → SemStep C s (s.set i .done)

/-- States a run of `run_all` with `n` devices can reach: all tasks
start before their pre-gate work. -/
def SemReachable (C n : Nat) (s : List TaskPhase) : Prop :=
  Relation.ReflTransGen (SemStep C) (List.replicate n .prelude) s

theorem countP_set_aux {α : Type} (p : α → Bool) :
    ∀ (s : List α) (i : Nat) (a b : α), s[i]? = some b →
      (s.set i a).countP p + (if p b then 1 else 0) =
        s.countP p + (if p a then 1 else 0) := by
  intro s
  induction s with
  | nil => intro i a b h; simp at h
  | cons x xs ih =>
    intro i a b h
    cases i with
    | zero =>
      simp only [List.getElem?_cons_zero, Option.some.injEq] at h
      subst h
      simp [List.countP_cons]
      omega
    | succ j =>
      simp only [List.getElem?_cons_succ] at h
      simp only [List.set_cons_succ, List.countP_cons]
      have := ih j a b h
      omega

theorem holdingCount_le_of_step (C : Nat) (s s' : List TaskPhase)
    (h : SemStep C s s') (hs : holdingCount s ≤ C) : holdingCount s' ≤ C := by
  cases h with
  | toWaiting i hi =>
    have := countP_set_aux (fun p => p == TaskPhase.holding) s i .waiting .prelude hi
    simp [holdingCount] at *
    omega
  | preGateFail i hi =>
    have := countP_set_aux (fun p => p == TaskPhase.holding) s i .done .prelude hi
    simp [holdingCount] at *
    omega
  | acquire i hi hlt =>
    have := countP_set_aux (fun p => p == TaskPhase.holding) s i .holding .waiting hi
    simp [holdingCount] at *
    omega
  | release i hi =>
    have := countP_set_aux (fun p => p == TaskPhase.holding) s i .released .holding hi
    simp [holdingCount] at *
    omega
  | finish i hi =>
    have := countP_set_aux (fun p => p == TaskPhase.holding) s i .done .released hi
    simp [holdingCount] at *
    omega

theorem getElem?_set_self_aux {α : Type} :
    ∀ (l : List α) (i : Nat) (a b : α), l[i]? = some b → (l.set i a)[i]? = some a := by
  intro l
  induction l with
  | nil => intro i a b h; simp at h
  | cons x xs ih =>
    intro i a b h
    cases i with
    | zero => simp
    | succ j =>
      simp only [List.getElem?_cons_succ] at h
      simp only [List.set_cons_succ, List.getElem?_cons_succ]
      exact ih j a b h

theorem getElem?_set_other_aux {α : Type} :
    ∀ (l : List α) (i j : Nat) (a : α), i ≠ j → (l.set i a)[j]? = l[j]? := by
  intro l
  induction l with
  | nil => intro i j a h; simp
  | cons x xs ih =>
    intro i j a h
    cases i with
    | zero =>
      cases j with
      | zero => exact absurd rfl h
      | succ k => simp
    | succ i' =>
      cases j with
      | zero => simp
      | succ k =>
        simp only [List.set_cons_succ, List.getElem?_cons_succ]
        exact ih i' k a (fun hc => h (by rw [hc]))

/-- Claim C4: for every configured concurrency bound `C ≥ 1` and every
device count `n`, no reachable state of a run has more than `C` tasks
inside the admission gate, and a task holding a slot can only keep
holding or release it — never return (`done`) while still holding: the
`async with` block releases unconditionally on exit, including when the
body raised, before the task's result is returned. -/
theorem admission_gate_bound (C n : Nat) (hC : 1 ≤ C) (s : List TaskPhase)
    (h : SemReachable C n s) :
    holdingCount s ≤ C ∧
    (∀ (s' : List TaskPhase) (i : Nat), SemStep C s s' →
      s[i]? = some TaskPhase.holding →
      s'[i]? = some TaskPhase.holding ∨ s'[i]? = some TaskPhase.released) := by
  constructor
  · induction h with
    | refl =>
      have : holdingCount (List.replicate n TaskPhase.prelude) = 0 := by
        induction n with
        | zero => rfl
        | succ m ihm => simp [List.replicate, holdingCount, List.countP_cons] at *
      omega
    | tail _ hstep ih => exact holdingCount_le_of_step C _ _ hstep ih
  · intro s' i hstep hi
    cases hstep with
    | toWaiting j hj =>
      by_cases hij : j = i
      · subst hij; rw [hj] at hi; cases hi
      · left; rw [getElem?_set_other_aux s j i .waiting hij]; exact hi
    | preGateFail j hj =>
      by_cases hij : j = i
      · subst hij; rw [hj] at hi; cases hi
      · left; rw [getElem?_set_other_aux s j i .done hij]; exact hi
    | acquire j hj hlt =>
      by_cases hij : j = i
      · subst hij; rw [hj] at hi; cases hi
      · left; rw [getElem?_set_other_aux s j i .holding hij]; exact hi
    | release j hj =>
      by_cases hij : j = i
      · subst hij; right; exact getElem?_set_self_aux s j .released .holding hi
      · left; rw [getElem?_set_other_aux s j i .released hij]; exact hi
    | finish j hj =>
      by_cases hij : j = i
      · subst hij; rw [hj] at hi; cases hi
      · left; rw [getElem?_set_other_aux s j i .done hij]; exact hi

/-- Concrete instance of `admission_gate_bound`: with `C = 1` and two
devices, after task 0 reaches the gate and acquires the slot, the bound
still holds in the reached state `[holding, prelude]`. -/
theorem admission_gate_bound_witness :
    holdingCount [TaskPhase.holding, TaskPhase.prelude] ≤ 1 :=
  (admission_gate_bound 1 2 (by decide) [TaskPhase.holding, TaskPhase.prelude]
    (Relation.ReflTransGen.tail
      (Relation.ReflTransGen.tail Relation.ReflTransGen.refl
        (SemStep.toWaiting (List.replicate 2 TaskPhase.prelude) 0 rfl))
      (SemStep.acquire [TaskPhase.waiting, TaskPhase.prelude] 0 rfl
        (by decide)))).1

/-! ## Event-stream interpreter (`_run_agent_with_logging`, lines 248-343)

Events carry their text fields as strings (a missing/None field is the
empty string, matching Python truthiness tests); `sharedStep` is
`agent.shared_state.step_number` when the engine exposes it (`hasattr`),
`none` otherwise; `lastStep` is the interpreter's local `last_step`. -/

inductive AgentEvent
  | taskThinking (thoughts code : String)
  | taskExecution (code : String)
  | taskExecutionResult (output : String)
  | taskEnd (success : Bool) (reason : String)
  | executorResult (outcome : Bool) (summary error : String)
  | managerPlan (subgoal thought : String)
  | codeActResult (success : Bool) (reason : String)
  | scripterResult (success : Bool) (message : String)
deriving DecidableEq, Repr

inductive LogLevel
  | debug
  | info
  | warning
deriving DecidableEq, Repr

structure LogLine where
  level : LogLevel
  text : String
deriving DecidableEq, Repr

/-- Line 280: `event.thoughts[:200] + "..." if len(event.thoughts) > 200
else event.thoughts`. -/
def thought_preview (thoughts : String) : String :=
  if thoughts.length > 200 then thoughts.take 200 ++ "..." else thoughts

/-- Line 283: the 150-character cutoff for the code attached to a
thinking event. -/
def thinking_code_preview (code : String) : String :=
  if code.length > 150 then code.take 150 ++ "..." else code

/-- Line 289: the 100-character cutoff for the code of an
execution-start event. -/
def exec_code_preview (code : String) : String :=
  if code.length > 100 then code.take 100 ++ "..." else code

/-- Lines 297/300: the 150-character cutoff for an execution result. -/
def output_preview (output : String) : String :=
  if output.length > 150 then output.take 150 ++ "..." else output

/-- Line 325: the 150-character cutoff for a plan event's rationale. -/
def plan_thought_preview (thought : String) : String :=
  if thought.length > 150 then thought.take 150 ++ "..." else thought

/-- Whether `sub` occurs as a contiguous substring (Python's `in`). -/
def charsStart : List Char → List Char → Bool
  | [], _ => true
  | _ :: _, [] => false
  | a :: as, b :: bs => a == b && charsStart as bs

def hasSub (sub : List Char) : List Char → Bool
  | [] => sub.isEmpty
  | b :: bs => charsStart sub (b :: bs) || hasSub sub bs

def strContains (s sub : String) : Bool :=
  hasSub sub.data s.data

/-- The body of the `async for` loop of `_run_agent_with_logging`: the
log lines one event produces and the updated local `last_step`. -/
def process_event (sharedStep : Option Nat) (maxSteps lastStep : Nat) :
    AgentEvent → List LogLine × Nat
  | .taskThinking thoughts code =>
    let currentStep := sharedStep.getD lastStep
    ((if thoughts ≠ "" then
        [⟨.info, "Step " ++ toString (currentStep + 1) ++ "/" ++ toString maxSteps
            ++ " [Thinking]: " ++ thought_preview thoughts⟩]
      else []) ++
     (if code ≠ "" then
        [⟨.debug, "  Code: " ++ thinking_code_preview code⟩]
      else []),
     lastStep)
  | .taskExecution code =>
    let currentStep := sharedStep.getD lastStep
    ([⟨.info, "Step " ++ toString (currentStep + 1) ++ "/" ++ toString maxSteps
        ++ " [Executing]: " ++ exec_code_preview code⟩],
     lastStep)
  | .taskExecutionResult output =>
    let currentStep := sharedStep.getD lastStep
    ((if strContains output "Error" || strContains output "Exception" then
        [⟨.warning, "Step " ++ toString (currentStep + 1) ++ "/" ++ toString maxSteps
            ++ " [Error]: " ++ output_preview output⟩]
      else
        [⟨.info, "Step " ++ toString (currentStep + 1) ++ "/" ++ toString maxSteps
            ++ " [Result]: " ++ output_preview output⟩]),
     currentStep + 1)
  | .taskEnd success reason =>
    ([⟨.info, "Task [" ++ (if success then "✓" else "✗") ++ "]: " ++ reason⟩],
     lastStep)
  | .executorResult outcome summary error =>
    let currentStep := sharedStep.getD lastStep
    (([⟨.info, "Step " ++ toString currentStep ++ "/" ++ toString maxSteps
        ++ " [" ++ (if outcome then "✓" else "✗") ++ "]: "
        ++ (if summary ≠ "" then summary else "(action completed)")⟩]) ++
     (if error ≠ "" then [⟨.warning, "  Error: " ++ error⟩] else []),
     currentStep)
  | .managerPlan subgoal thought =>
    ((if subgoal ≠ "" then [⟨.info, "Subgoal: " ++ subgoal⟩] else []) ++
     (if thought ≠ "" then
        [⟨.debug, "Thought: " ++ plan_thought_preview thought⟩]
      else []),
     lastStep)
  | .codeActResult success reason =>
    let currentStep := sharedStep.getD lastStep
    ([⟨.info, "Step " ++ toString currentStep ++ "/" ++ toString maxSteps
        ++ " [" ++ (if success then "✓" else "✗") ++ "]: " ++ reason⟩],
     currentStep)
  | .scripterResult success message =>
    ([⟨.info, "Script [" ++ (if success then "✓" else "✗") ++ "]: " ++ message⟩],
     lastStep)

theorem string_length_take (s : String) (n : Nat) :
    (s.take n).length = min n s.length := by
  show (s.take n).data.length = min n s.data.length
  rw [String.data_take]
  exact List.length_take n s.data

/-- Claim C8: each preview applies a hard character cutoff — text
strictly longer than the cutoff (200 for thinking rationale, 150 for
thinking code / execution output / plan rationale, 100 for
execution-start code) becomes exactly the cutoff-length prefix followed
by the ellipsis, and text at or under the cutoff passes unmodified. -/
theorem event_text_truncation (s : String) :
    (200 < s.length → thought_preview s = s.take 200 ++ "..."
      ∧ (s.take 200).length = 200) ∧
    (s.length ≤ 200 → thought_preview s = s) ∧
    (150 < s.length → thinking_code_preview s = s.take 150 ++ "..."
      ∧ output_preview s = s.take 150 ++ "..."
      ∧ plan_thought_preview s = s.take 150 ++ "..."
      ∧ (s.take 150).length = 150) ∧
    (s.length ≤ 150 → thinking_code_preview s = s
      ∧ output_preview s = s ∧ plan_thought_preview s = s) ∧
    (100 < s.length → exec_code_preview s = s.take 100 ++ "..."
      ∧ (s.take 100).length = 100) ∧
    (s.length ≤ 100 → exec_code_preview s = s) := by
  refine ⟨?_, ?_, ?_, ?_, ?_, ?_⟩ <;> intro h <;>
    simp_all [thought_preview, thinking_code_preview, output_preview,
      plan_thought_preview, exec_code_preview, string_length_take] <;>
    omega

set_option maxRecDepth 4000 in
/-- Concrete instances of `event_text_truncation`: a 201-character
rationale is cut to its 200-character prefix plus ellipsis; a short
code preview passes through unmodified. -/
theorem event_text_truncation_witness :
    thought_preview (String.mk (List.replicate 201 'a')) =
      (String.mk (List.replicate 201 'a')).take 200 ++ "..." ∧
    exec_code_preview "short" = "short" :=
  ⟨((event_text_truncation (String.mk (List.replicate 201 'a'))).1 (by decide)).1,
   (event_text_truncation "short").2.2.2.2.2 (by decide)⟩

/-- Counterexample to claim C9: with the engine's shared step counter
unavailable (`none`), a step-outcome event (`ExecutorResultEvent`,
line 318 `last_step = current_step`) does not increment the fallback
counter — it stays at 0 instead of becoming 1 — while an
execution-result event (line 302 `last_step = current_step + 1`)
does increment it. -/
theorem executor_result_no_increment_cex :
    (process_event none 100 0 (AgentEvent.executorResult true "done" "")).2
      ≠ 0 + 1 ∧
    (process_event none 100 0 (AgentEvent.taskExecutionResult "out")).2
      = 0 + 1 := by
  constructor
  · decide
  · decide

/-- Claim C9 amended: when the engine's shared step counter is
unavailable the interpreter falls back to its own `last_step`, but only
an execution-result event increments that fallback counter
(`last_step = current_step + 1`); the step-outcome events (executor
result, code-act result) set it to the current displayed step without
incrementing, leaving it unchanged in the fallback case. -/
theorem step_counter_fallback_update (maxSteps last : Nat) (o : Bool)
    (su er out rs : String) :
    (process_event none maxSteps last (.taskExecutionResult out)).2 = last + 1 ∧
    (process_event none maxSteps last (.executorResult o su er)).2 = last ∧
    (process_event none maxSteps last (.codeActResult o rs)).2 = last ∧
    (∀ k, (process_event (some k) maxSteps last (.taskExecutionResult out)).2
      = k + 1) ∧
    (∀ k, (process_event (some k) maxSteps last (.executorResult o su er)).2
      = k) ∧
    (∀ k, (process_event (some k) maxSteps last (.codeActResult o rs)).2 = k) := by
  refine ⟨?_, ?_, ?_, fun k => ?_, fun k => ?_, fun k => ?_⟩ <;>
    simp [process_event]

/-! ## Console output (`ConsoleOutput`, `utils/device_logger.py` 95-168)

The elapsed seconds (a float formatted with one decimal in the source)
are abstracted to a `Nat`; every printed line is modelled verbatim
otherwise. -/

/-- Line 114: the 60-character goal preview of the header. -/
def goal_preview (goal : String) : String :=
  if goal.length > 60 then goal.take 60 ++ "..." else goal

/-- `ConsoleOutput.print_header` (lines 111-121). -/
def print_header_lines (goal : String) (concurrency device_count : Nat) :
    List String :=
  ["",
   "🚀 DroidRun Multi-Device Automation",
   "📱 Devices: " ++ toString device_count ++ " | ⚙️ Concurrency: "
     ++ toString concurrency,
   "🎯 Goal: " ++ goal_preview goal,
   String.mk (List.replicate 60 '='),
   ""]

/-- `ConsoleOutput.print_summary` (lines 155-167): an empty line, the
separator bar, the totals line, an empty line — and nothing else; the
concurrency bound is not a parameter of this method. -/
def print_summary_lines (success_count total_count elapsed : Nat) :
    List String :=
  ["",
   String.mk (List.replicate 60 '='),
   "📊 Summary: " ++ toString success_count ++ "/" ++ toString total_count
     ++ " successful | Total: " ++ toString elapsed ++ "s",
   ""]

theorem charsStart_subset :
    ∀ sub s : List Char, charsStart sub s = true → ∀ c ∈ sub, c ∈ s := by
  intro sub
  induction sub with
  | nil => intro s _ c hc; simp at hc
  | cons a as ih =>
    intro s h c hc
    cases s with
    | nil => simp [charsStart] at h
    | cons b bs =>
      simp only [charsStart, Bool.and_eq_true, beq_iff_eq] at h
      rcases List.mem_cons.mp hc with rfl | hc
      · rw [h.1]; exact List.mem_cons_self b bs
      · exact List.mem_cons_of_mem b (ih bs h.2 c hc)

theorem hasSub_subset :
    ∀ sub s : List Char, hasSub sub s = true → ∀ c ∈ sub, c ∈ s := by
  intro sub s
  induction s with
  | nil =>
    intro h c hc
    rw [hasSub] at h
    rw [List.isEmpty_iff] at h
    subst h
    simp at hc
  | cons b bs ih =>
    intro h c hc
    rw [hasSub, Bool.or_eq_true] at h
    rcases h with h | h
    · exact charsStart_subset sub (b :: bs) h c hc
    · exact List.mem_cons_of_mem b (ih h c hc)

theorem hasSub_false_of_not_mem (sub s : List Char) (c : Char)
    (hc : c ∈ sub) (hs : c ∉ s) : hasSub sub s = false := by
  cases h : hasSub sub s
  · rfl
  · exact absurd (hasSub_subset sub s h c hc) hs

theorem charsStart_self : ∀ sub : List Char, charsStart sub sub = true := by
  intro sub
  induction sub with
  | nil => rfl
  | cons a as ih => simp [charsStart, ih]

theorem hasSub_append_left : ∀ pre sub : List Char, hasSub sub (pre ++ sub) = true := by
  intro pre
  induction pre with
  | nil =>
    intro sub
    cases sub with
    | nil => rfl
    | cons a as => simp [hasSub, charsStart_self]
  | cons p ps ih =>
    intro sub
    simp [hasSub, ih sub]

theorem digitChar_isDigit (n : Nat) (h : n < 10) :
    (Nat.digitChar n).isDigit = true := by
  interval_cases n <;> decide

theorem toDigitsCore_isDigit :
    ∀ (f n : Nat) (acc : List Char), (∀ c ∈ acc, c.isDigit = true) →
      ∀ c ∈ Nat.toDigitsCore 10 f n acc, c.isDigit = true := by
  intro f
  induction f with
  | zero => intro n acc hacc c hc; rw [Nat.toDigitsCore] at hc; exact hacc c hc
  | succ f ih =>
    intro n acc hacc c hc
    rw [Nat.toDigitsCore] at hc
    by_cases h : n / 10 = 0
    · rw [if_pos h] at hc
      rcases List.mem_cons.mp hc with rfl | hc
      · exact digitChar_isDigit _ (Nat.mod_lt _ (by decide))
      · exact hacc c hc
    · rw [if_neg h] at hc
      refine ih (n / 10) _ ?_ c hc
      intro c' hc'
      rcases List.mem_cons.mp hc' with rfl | hc'
      · exact digitChar_isDigit _ (Nat.mod_lt _ (by decide))
      · exact hacc c' hc'

theorem repr_isDigit (n : Nat) : ∀ c ∈ (Nat.repr n).data, c.isDigit = true := by
  intro c hc
  have hdata : (Nat.repr n).data = Nat.toDigitsCore 10 (n + 1) n [] := rfl
  rw [hdata] at hc
  exact toDigitsCore_isDigit (n + 1) n [] (by intro c' hc'; simp at hc') c hc

theorem not_mem_repr_of_not_digit (n : Nat) (c : Char)
    (h : c.isDigit = false) : c ∉ (Nat.repr n).data := by
  intro hc
  have := repr_isDigit n c hc
  rw [this] at h
  exact Bool.noConfusion h

theorem summary_line_char_free (s t e : Nat) (c : Char) (hc : c.isDigit = false)
    (h1 : c ∉ "📊 Summary: ".data) (h2 : c ∉ "/".data)
    (h3 : c ∉ " successful | Total: ".data) (h4 : c ∉ "s".data) :
    c ∉ ("📊 Summary: " ++ toString s ++ "/" ++ toString t
      ++ " successful | Total: " ++ toString e ++ "s").data := by
  intro hmem
  simp only [String.data_append, List.mem_append] at hmem
  rcases hmem with ((((((h | h) | h) | h) | h) | h) | h)
  · exact h1 h
  · exact not_mem_repr_of_not_digit s c hc h
  · exact h2 h
  · exact not_mem_repr_of_not_digit t c hc h
  · exact h3 h
  · exact not_mem_repr_of_not_digit e c hc h
  · exact h4 h

/-- Counterexample to claim C6: for the "all succeed" scenario
(3 devices, 3/3 successful, with `concurrency = 2` configured), no line
of `print_summary` contains `"sequential"` or `"parallel"` as a
substring — the summary carries no concurrency mode label at all; the
method does not even receive the concurrency bound. -/
theorem summary_mode_label_missing_cex :
    ((print_summary_lines 3 3 7).all (fun line =>
      !(hasSub "sequential".data line.data
        || hasSub "parallel".data line.data))) = true := by decide

theorem header_devices_line_split (cb n : Nat) :
    ("📱 Devices: " ++ toString n ++ " | ⚙️ Concurrency: "
      ++ toString cb).data =
    ("📱 Devices: ".data ++ (Nat.repr n).data ++ " | ⚙️ ".data)
      ++ ("Concurrency: " ++ toString cb).data := by
  have hsplit : " | ⚙️ Concurrency: ".data
      = " | ⚙️ ".data ++ "Concurrency: ".data := by decide
  simp only [String.data_append, hsplit, List.append_assoc]
  rfl

/-- Claim C6 amended: the run-level summary block contains only the
success/total count and the total wall time — no line of it mentions
`"sequential"` or `"parallel"` — while the concurrency value is shown
once, in the run header, as `⚙️ Concurrency: C` on the devices line. -/
theorem summary_no_mode_label (s t e cb n : Nat) (g : String) :
    (∀ line ∈ print_summary_lines s t e,
      hasSub "sequential".data line.data = false ∧
      hasSub "parallel".data line.data = false) ∧
    hasSub ("Concurrency: " ++ toString cb).data
      ("📱 Devices: " ++ toString n ++ " | ⚙️ Concurrency: "
        ++ toString cb).data = true ∧
    ("📱 Devices: " ++ toString n ++ " | ⚙️ Concurrency: " ++ toString cb)
      ∈ print_header_lines g cb n := by
  refine ⟨?_, ?_, ?_⟩
  · intro line hline
    rw [print_summary_lines] at hline
    rcases List.mem_cons.mp hline with rfl | hline
    · exact ⟨by decide, by decide⟩
    rcases List.mem_cons.mp hline with rfl | hline
    · exact ⟨by decide, by decide⟩
    rcases List.mem_cons.mp hline with rfl | hline
    · constructor
      · exact hasSub_false_of_not_mem _ _ 'q' (by decide)
          (summary_line_char_free s t e 'q' (by decide) (by decide) (by decide)
            (by decide) (by decide))
      · exact hasSub_false_of_not_mem _ _ 'p' (by decide)
          (summary_line_char_free s t e 'p' (by decide) (by decide) (by decide)
            (by decide) (by decide))
    rcases List.mem_cons.mp hline with rfl | hline
    · exact ⟨by decide, by decide⟩
    · simp at hline
  · rw [header_devices_line_split]
    exact hasSub_append_left _ _
  · rw [print_header_lines]
    exact List.mem_cons_of_mem _ (List.mem_cons_of_mem _ (List.mem_cons_self _ _))

/-- Concrete instance of `summary_no_mode_label` at the 3/3 success
summary line. -/
theorem summary_no_mode_label_witness :
    hasSub "parallel".data
      ("📊 Summary: " ++ toString 3 ++ "/" ++ toString 3
        ++ " successful | Total: " ++ toString 7 ++ "s").data = false :=
  ((summary_no_mode_label 3 3 7 2 3 "goal").1 _
    (by rw [print_summary_lines]; simp)).2
